import Mathlib

/-!
Verification of the Charades dataset-loading scripts (charades.py and
charadesMeddled.py): a shallow embedding of the annotation-parsing and
record-assembly logic of `Charades._generate_examples`, together with the
declared output schema of `Charades._info`, and theorems settling the
specification's claims about them.

Timing values are modelled as exact rationals (`ℚ`): every timing literal
appearing in the annotation format is a plain decimal string, which Python's
`float` parses exactly up to binary rounding; the rational model preserves
the parse structure (which string parses to which number, and which strings
fail) that the claims are about.
-/

namespace Charades

/-- Python's `str.split(sep)` with an explicit one-character separator,
on a list of characters: splitting the empty string yields `[[]]`, and
adjacent/trailing separators yield empty-string elements. -/
def splitOnChar (c : Char) : List Char → List (List Char)
  | [] => [[]]
  | x :: xs =>
    match splitOnChar c xs with
    | [] => [[]]
    | h :: t => if x = c then [] :: h :: t else (x :: h) :: t

/-- Python's `s.split(sep)` for a one-character separator `sep`, on strings. -/
def pySplit (c : Char) (s : String) : List String :=
  (splitOnChar c s.data).map List.asString

/-- Value of a list of decimal digit characters, most significant first. -/
def digitsToNat (cs : List Char) : Nat :=
  cs.foldl (fun n c => 10 * n + (c.toNat - 48)) 0

/-- Strip leading and trailing whitespace from a character list
(Python's `str.strip()` as applied inside `int()`/`float()`). -/
def stripChars (cs : List Char) : List Char :=
  ((cs.dropWhile Char.isWhitespace).reverse.dropWhile Char.isWhitespace).reverse

/-- Split off an optional leading sign; returns the sign as an integer
multiplier together with the remaining characters. -/
def splitSign : List Char → Int × List Char
  | '-' :: rest => (-1, rest)
  | '+' :: rest => (1, rest)
  | cs => (1, cs)

/-- Python's `int(s)` on a string argument: surrounding whitespace is
allowed, then an optional sign, then a non-empty run of decimal digits;
anything else raises `ValueError` (modelled as `none`). -/
def pyInt (s : String) : Option Int :=
  let cs := stripChars s.data
  let (sign, ds) := splitSign cs
  if ds ≠ [] ∧ ds.all Char.isDigit then some (sign * (digitsToNat ds : Int)) else none

/-- Python's `float(s)` on the decimal (non-exponent, non-special) forms
that the annotation grammar uses: surrounding whitespace, an optional sign,
and digits with at most one `.`, at least one digit present. The value is
returned as an exact rational. -/
def pyFloat (s : String) : Option ℚ :=
  let cs := stripChars s.data
  let (sign, ds) := splitSign cs
  match splitOnChar '.' ds with
  | [ip] =>
      if ip ≠ [] ∧ ip.all Char.isDigit then some (sign * (digitsToNat ip : ℚ)) else none
  | [ip, fp] =>
      if (ip ≠ [] ∨ fp ≠ []) ∧ ip.all Char.isDigit ∧ fp.all Char.isDigit then
        some (sign * ((digitsToNat ip : ℚ) + (digitsToNat fp : ℚ) / 10 ^ fp.length))
      else none
  | _ => none

/-- The action-class table: an ordered association of class codes to class
names, standing for the `CHARADES_CLASSES` dictionary imported from the
repository's `classes` module. -/
def ActionClassTable := List (String × String)

/-- Modelled from the spec: the repository's `classes` module (defining the
`CHARADES_CLASSES` mapping) is not among the given source files. Per the
spec's `ActionClassTable.resolve`, looking a class code up yields the
zero-based index of the code's position in the table's fixed enumeration
order (the parser's dictionary lookup combined with the `ClassLabel`
feature encoding), and fails (`UnknownClassCode`, a `KeyError` in the
source) when the code is absent. -/
def resolve (t : ActionClassTable) (code : String) : Option Nat :=
  let rec go : List (String × String) → Nat → Option Nat
    | [], _ => none
    | (c, _) :: rest, i => if c = code then some i else go rest (i + 1)
  go t 0

/-- The parse failures `_generate_examples` can raise: a `KeyError` from the
class-table lookup, a `ValueError` from `float` on a timing sub-token, and a
`ValueError` from `int` on `quality`/`relevance`. -/
inductive Err where
  | unknownClassCode (code : String)
  | malformedTiming (tok : String)
  | malformedInteger (field : String)
deriving DecidableEq

/-- One raw CSV row, header-keyed as `csv.DictReader` presents it. -/
structure Row where
  id : String
  subject : String
  scene : String
  quality : String
  relevance : String
  verified : String
  script : String
  objects : String
  descriptions : String
  actions : String
  length : String
deriving DecidableEq

/-- One yielded record of `_generate_examples`. -/
structure ActivityRecord where
  video_id : String
  video : String
  subject : String
  scene : String
  quality : Int
  relevance : Int
  verified : String
  script : String
  objects : List String
  descriptions : List String
  labels : List Nat
  action_timings : List (List ℚ)
  length : String
deriving DecidableEq

instance : DecidableEq (Except Err ActivityRecord) := fun a b =>
  match a, b with
  | .ok x, .ok y => decidable_of_iff (x = y) (by simp)
  | .error x, .error y => decidable_of_iff (x = y) (by simp)
  | .ok _, .error _ => isFalse (by simp)
  | .error _, .ok _ => isFalse (by simp)

/-- `list(map(float, subs))` with Python's first-failure exception
propagation; a `ValueError` from `float` is `MalformedTiming`. -/
def parseTimings : List String → Except Err (List ℚ)
  | [] => .ok []
  | s :: rest =>
    match pyFloat s with
    | none => .error (.malformedTiming s)
    | some q =>
      match parseTimings rest with
      | .error e => .error e
      | .ok qs => .ok (q :: qs)

/-- Parse one non-empty token of the `actions` cell
(`class_label` in the source): split on single spaces,
resolve the first sub-token through the class table
(`CHARADES_CLASSES[class_label.split(" ")[0]]`),
and parse the remaining sub-tokens as floats, in order
(`list(map(float, class_label.split(" ")[1:]))`); the lookup's
`KeyError` is raised before the timings are parsed. -/
def parseToken (t : ActionClassTable) (tok : String) : Except Err (Nat × List ℚ) :=
  let parts := pySplit ' ' tok
  match resolve t (parts.headD "") with
  | none => .error (.unknownClassCode (parts.headD ""))
  | some label =>
    match parseTimings parts.tail with
    | .error e => .error e
    | .ok timings => .ok (label, timings)

/-- The `for class_label in row["actions"].split(";")` loop body over the
token list: empty tokens are skipped (`if len(class_label) != 0`), each
surviving token contributes one label and one timing list, in order; the
first failure aborts the row. -/
def parseActionsTokens (t : ActionClassTable) : List String → Except Err (List Nat × List (List ℚ))
  | [] => .ok ([], [])
  | tok :: rest =>
    if tok.length ≠ 0 then
      match parseToken t tok with
      | .error e => .error e
      | .ok (label, timings) =>
        match parseActionsTokens t rest with
        | .error e => .error e
        | .ok (labels, action_timings) => .ok (label :: labels, timings :: action_timings)
    else parseActionsTokens t rest

/-- The whole `actions`-cell parse of one row. -/
def parseActions (t : ActionClassTable) (actions : String) : Except Err (List Nat × List (List ℚ)) :=
  parseActionsTokens t (pySplit ';' actions)

/-- `int(row["quality"]) if len(row["quality"]) != 0 else -100`
(and likewise for `relevance`): a `ValueError` is `MalformedInteger`. -/
def parseQuality (s : String) : Except Err Int :=
  if s.length ≠ 0 then
    match pyInt s with
    | some n => .ok n
    | none => .error (.malformedInteger s)
  else .ok (-100)

/-- Python's `str.startswith` for string arguments. -/
def pyStartsWith (s p : String) : Bool :=
  p.data.isPrefixOf s.data

/-- Python's `str.endswith` for string arguments. -/
def pyEndsWith (s p : String) : Bool :=
  p.data.reverse.isPrefixOf s.data.reverse

/-- POSIX `os.path.join` restricted to two components, as the source calls
it: an absolute second component replaces the first; otherwise the parts are
concatenated, inserting `/` unless the first part is empty or already ends
with `/`. -/
def osPathJoin (a b : String) : String :=
  if pyStartsWith b "/" then b
  else if a = "" ∨ pyEndsWith a "/" then a ++ b
  else a ++ "/" ++ b

/-- Assembly of one record from one row (charades.py, lines 111-136):
`path = os.path.join(video_folder, row["id"] + ".mp4")`, then the actions
loop, then the yielded dictionary (whose `int(...)` calls evaluate in
literal order, `quality` before `relevance`). -/
def mkRecord (t : ActionClassTable) (video_folder : String) (row : Row) :
    Except Err ActivityRecord :=
  let path := osPathJoin video_folder (row.id ++ ".mp4")
  match parseActions t row.actions with
  | .error e => .error e
  | .ok (labels, action_timings) =>
  match parseQuality row.quality with
  | .error e => .error e
  | .ok quality =>
  match parseQuality row.relevance with
  | .error e => .error e
  | .ok relevance =>
  .ok {
    video_id := row.id
    video := path
    subject := row.subject
    scene := row.scene
    quality := quality
    relevance := relevance
    verified := row.verified
    script := row.script
    objects := pySplit ';' row.objects
    descriptions := pySplit ';' row.descriptions
    labels := labels
    action_timings := action_timings
    length := row.length
  }

/-- The generator loop of `_generate_examples` (charades.py, lines 109-138)
over the rows of the CSV stream, started at counter value `idx`: the counter
is incremented after each yield; the result is the list of yielded
`(idx, record)` pairs together with, when a row fails to parse, the
propagated error and the index and raw row at which the generator was
interrupted. -/
def generateFrom (t : ActionClassTable) (video_folder : String) (idx : Nat) :
    List Row → List (Nat × ActivityRecord) × Option (Nat × Row × Err)
  | [] => ([], none)
  | row :: rest =>
    match mkRecord t video_folder row with
    | .error e => ([], some (idx, row, e))
    | .ok rec =>
      let next := generateFrom t video_folder (idx + 1) rest
      ((idx, rec) :: next.1, next.2)

/-- The generator started at `idx = 0`, as `_generate_examples` runs it. -/
def generateExamples (t : ActionClassTable) (video_folder : String)
    (rows : List Row) : List (Nat × ActivityRecord) × Option (Nat × Row × Err) :=
  generateFrom t video_folder 0 rows

/-! The same record-assembly logic as translated from charadesMeddled.py
(lines 207-244): that file duplicates the class `Charades` with its own
`_generate_examples`, importing the same `classes` module and the same
standard-library `split`/`int`/`float`/`os.path.join`, so those models are
shared; the duplicated method bodies are embedded separately below. -/

/-- charadesMeddled.py: `list(map(float, ...))` on the timing sub-tokens of
`class_label` (line 221). -/
def parseTimingsM : List String → Except Err (List ℚ)
  | [] => .ok []
  | s :: rest =>
    match pyFloat s with
    | none => .error (.malformedTiming s)
    | some q =>
      match parseTimingsM rest with
      | .error e => .error e
      | .ok qs => .ok (q :: qs)

/-- charadesMeddled.py: parse one non-empty token of the `actions` cell
(lines 220-222). -/
def parseTokenM (t : ActionClassTable) (tok : String) : Except Err (Nat × List ℚ) :=
  let parts := pySplit ' ' tok
  match resolve t (parts.headD "") with
  | none => .error (.unknownClassCode (parts.headD ""))
  | some label =>
    match parseTimingsM parts.tail with
    | .error e => .error e
    | .ok timings => .ok (label, timings)

/-- charadesMeddled.py: the `for class_label in row["actions"].split(";")`
loop (lines 216-222). -/
def parseActionsTokensM (t : ActionClassTable) : List String → Except Err (List Nat × List (List ℚ))
  | [] => .ok ([], [])
  | tok :: rest =>
    if tok.length ≠ 0 then
      match parseTokenM t tok with
      | .error e => .error e
      | .ok (label, timings) =>
        match parseActionsTokensM t rest with
        | .error e => .error e
        | .ok (labels, action_timings) => .ok (label :: labels, timings :: action_timings)
    else parseActionsTokensM t rest

/-- charadesMeddled.py: the whole `actions`-cell parse of one row. -/
def parseActionsM (t : ActionClassTable) (actions : String) : Except Err (List Nat × List (List ℚ)) :=
  parseActionsTokensM t (pySplit ';' actions)

/-- charadesMeddled.py: the `quality`/`relevance` parse (lines 229-234). -/
def parseQualityM (s : String) : Except Err Int :=
  if s.length ≠ 0 then
    match pyInt s with
    | some n => .ok n
    | none => .error (.malformedInteger s)
  else .ok (-100)

/-- charadesMeddled.py: assembly of one record from one row
(lines 213-242). -/
def mkRecordM (t : ActionClassTable) (video_folder : String) (row : Row) :
    Except Err ActivityRecord :=
  let path := osPathJoin video_folder (row.id ++ ".mp4")
  match parseActionsM t row.actions with
  | .error e => .error e
  | .ok (labels, action_timings) =>
  match parseQualityM row.quality with
  | .error e => .error e
  | .ok quality =>
  match parseQualityM row.relevance with
  | .error e => .error e
  | .ok relevance =>
  .ok {
    video_id := row.id
    video := path
    subject := row.subject
    scene := row.scene
    quality := quality
    relevance := relevance
    verified := row.verified
    script := row.script
    objects := pySplit ';' row.objects
    descriptions := pySplit ';' row.descriptions
    labels := labels
    action_timings := action_timings
    length := row.length
  }

/-- charadesMeddled.py: the generator loop of `_generate_examples`
(lines 207-244), started at counter value `idx`. -/
def generateFromM (t : ActionClassTable) (video_folder : String) (idx : Nat) :
    List Row → List (Nat × ActivityRecord) × Option (Nat × Row × Err)
  | [] => ([], none)
  | row :: rest =>
    match mkRecordM t video_folder row with
    | .error e => ([], some (idx, row, e))
    | .ok rec =>
      let next := generateFromM t video_folder (idx + 1) rest
      ((idx, rec) :: next.1, next.2)

/-- charadesMeddled.py: the generator started at `idx = 0`. -/
def generateExamplesM (t : ActionClassTable) (video_folder : String)
    (rows : List Row) : List (Nat × ActivityRecord) × Option (Nat × Row × Err) :=
  generateFromM t video_folder 0 rows

/-- The declared feature types of `Charades._info` (charades.py,
lines 59-79). -/
inductive FeatureType where
  | value (dtype : String)
  | sequence (elem : FeatureType)
  | classLabel (numClasses : Nat)
deriving DecidableEq

/-- The `datasets.Features` dictionary of `Charades._info`, keyed by field
name, with `numClasses = len(CHARADES_CLASSES)`. -/
def infoFeatures (numClasses : Nat) : List (String × FeatureType) :=
  [("video_id", .value "string"),
   ("video", .value "string"),
   ("subject", .value "string"),
   ("scene", .value "string"),
   ("quality", .value "int32"),
   ("relevance", .value "int32"),
   ("verified", .value "string"),
   ("script", .value "string"),
   ("objects", .sequence (.value "string")),
   ("descriptions", .sequence (.value "string")),
   ("labels", .sequence (.classLabel numClasses)),
   ("action_timings", .sequence (.sequence (.value "float32"))),
   ("length", .value "float32")]

/-! Concrete fixtures used to instantiate the theorems below on closed
inputs. -/

/-- A small concrete class table: `c092` at index 0, `c147` at index 1. -/
def sampleTable : ActionClassTable := [("c092", "a"), ("c147", "b")]

/-- A concrete well-formed CSV row. -/
def sampleRow : Row := {
  id := "AO8RW"
  subject := "S"
  scene := "Kitchen"
  quality := "5"
  relevance := ""
  verified := "Yes"
  script := "A person is cooking."
  objects := "c090;c148;"
  descriptions := "a person;"
  actions := "c092 11.0 13.0;c147 0.0 5.0"
  length := "12.3"
}

/-- The record `sampleRow` assembles to under `sampleTable` with video root
`/data/Charades_v1`. -/
def sampleRecord : ActivityRecord := {
  video_id := "AO8RW"
  video := "/data/Charades_v1/AO8RW.mp4"
  subject := "S"
  scene := "Kitchen"
  quality := 5
  relevance := -100
  verified := "Yes"
  script := "A person is cooking."
  objects := ["c090", "c148", ""]
  descriptions := ["a person", ""]
  labels := [0, 1]
  action_timings := [[11, 13], [0, 5]]
  length := "12.3"
}

/-- A concrete row whose `actions` cell carries a class code absent from
`sampleTable`. -/
def badRow : Row := { sampleRow with actions := "czzz 1.0 2.0" }

/-- A concrete row whose `quality` cell is whitespace-only (non-empty but
empty after trimming). -/
def wsRow : Row := { sampleRow with quality := " " }

/-- A concrete row whose `actions` cell is empty. -/
def emptyActionsRow : Row := { sampleRow with actions := "" }

/-- The record `emptyActionsRow` assembles to. -/
def emptyActionsRecord : ActivityRecord :=
  { sampleRecord with labels := [], action_timings := [] }

/-! Auxiliary lemmas shared by the claim theorems. -/

theorem parseActionsTokens_length {t : ActionClassTable} {toks : List String}
    {p : List Nat × List (List ℚ)} (h : parseActionsTokens t toks = .ok p) :
    p.1.length = p.2.length := by
  induction toks generalizing p with
  | nil =>
    simp only [parseActionsTokens] at h
    cases h
    rfl
  | cons tok rest ih =>
    simp only [parseActionsTokens] at h
    split at h
    · cases hpt : parseToken t tok with
      | error e => rw [hpt] at h; cases h
      | ok pr =>
        obtain ⟨label, timings⟩ := pr
        rw [hpt] at h
        cases hrest : parseActionsTokens t rest with
        | error e => rw [hrest] at h; cases h
        | ok q =>
          obtain ⟨labels, action_timings⟩ := q
          rw [hrest] at h
          cases h
          simpa using ih hrest
    · exact ih h

/-- Inversion of a successful `mkRecord`: the field values in terms of the
row. -/
theorem mkRecord_ok_inv {t : ActionClassTable} {f : String} {row : Row}
    {rec : ActivityRecord} (h : mkRecord t f row = .ok rec) :
    ∃ p q r, parseActions t row.actions = .ok p ∧
      parseQuality row.quality = .ok q ∧ parseQuality row.relevance = .ok r ∧
      rec = {
        video_id := row.id
        video := osPathJoin f (row.id ++ ".mp4")
        subject := row.subject
        scene := row.scene
        quality := q
        relevance := r
        verified := row.verified
        script := row.script
        objects := pySplit ';' row.objects
        descriptions := pySplit ';' row.descriptions
        labels := p.1
        action_timings := p.2
        length := row.length
      } := by
  simp only [mkRecord] at h
  cases ha : parseActions t row.actions with
  | error e => rw [ha] at h; cases h
  | ok p =>
    obtain ⟨labels, action_timings⟩ := p
    rw [ha] at h
    cases hq : parseQuality row.quality with
    | error e => rw [hq] at h; cases h
    | ok q =>
      rw [hq] at h
      cases hr : parseQuality row.relevance with
      | error e => rw [hr] at h; cases h
      | ok r =>
        rw [hr] at h
        cases h
        exact ⟨(labels, action_timings), q, r, rfl, rfl, rfl, rfl⟩

/-- Every pair yielded by the generator loop carries the counter value of
its position and the parse of the row at that position. -/
theorem generateFrom_get {t : ActionClassTable} {f : String} {rows : List Row}
    {idx i : Nat} {pr : Nat × ActivityRecord}
    (h : (generateFrom t f idx rows).1.get? i = some pr) :
    pr.1 = idx + i ∧ ∃ r, rows.get? i = some r ∧ mkRecord t f r = .ok pr.2 := by
  induction rows generalizing idx i pr with
  | nil => simp [generateFrom] at h
  | cons row rest ih =>
    simp only [generateFrom] at h
    cases hm : mkRecord t f row with
    | error e => rw [hm] at h; simp at h
    | ok rec =>
      rw [hm] at h
      cases i with
      | zero =>
        simp only [List.get?_cons_zero, Option.some.injEq] at h
        subst h
        exact ⟨by omega, row, by simp, hm⟩
      | succ n =>
        simp only [List.get?_cons_succ] at h
        obtain ⟨h1, r, h2, h3⟩ := ih h
        exact ⟨by omega, r, by simpa using h2, h3⟩

/-- When the generator loop is interrupted, the interruption happened right
after the yielded prefix: the reported index is the counter value of the
next position, the reported row is the row at that position, and that row's
parse is the reported error. -/
theorem generateFrom_err {t : ActionClassTable} {f : String} {rows : List Row}
    {idx j : Nat} {row : Row} {e : Err}
    (h : (generateFrom t f idx rows).2 = some (j, row, e)) :
    j = idx + (generateFrom t f idx rows).1.length ∧
    rows.get? (generateFrom t f idx rows).1.length = some row ∧
    mkRecord t f row = .error e := by
  induction rows generalizing idx with
  | nil => simp [generateFrom] at h
  | cons r0 rest ih =>
    cases hm : mkRecord t f r0 with
    | error e0 =>
      simp only [generateFrom, hm] at h ⊢
      simp at h
      obtain ⟨rfl, rfl, rfl⟩ := h
      exact ⟨by simp, by simp, hm⟩
    | ok rec =>
      simp only [generateFrom, hm] at h ⊢
      obtain ⟨h1, h2, h3⟩ := ih h
      refine ⟨?_, ?_, h3⟩
      · simp only [List.length_cons]
        omega
      · simpa using h2


/-- When every row of `pre` parses and `row` does not, the generator loop
yields exactly one record per row of `pre` and is then interrupted at `row`,
reporting the interruption index and `row` itself. -/
theorem generateFrom_abort {t : ActionClassTable} {f : String} {pre : List Row}
    {row : Row} {e : Err} (post : List Row)
    (hpre : ∀ r ∈ pre, ∃ rec, mkRecord t f r = .ok rec)
    (herr : mkRecord t f row = .error e) (idx : Nat) :
    (generateFrom t f idx (pre ++ row :: post)).1.length = pre.length ∧
    (generateFrom t f idx (pre ++ row :: post)).2 = some (idx + pre.length, row, e) := by
  induction pre generalizing idx with
  | nil => simp [generateFrom, herr]
  | cons r0 rest ih =>
    obtain ⟨rec0, h0⟩ := hpre r0 (by simp)
    have ih' := ih (fun r hr => hpre r (by simp [hr])) (idx + 1)
    simp only [List.cons_append, generateFrom, h0, List.length_cons]
    refine ⟨by simpa using ih'.1, ?_⟩
    rw [show idx + (rest.length + 1) = idx + 1 + rest.length from by omega]
    exact ih'.2


/-! The claims. -/

/-- C1: For every CSV row for which a record is yielded, the yielded record
satisfies `len(labels) == len(action_timings)`: the parser appends exactly
one timing list for each resolved label, preserving positional alignment. -/
theorem yielded_labels_align_with_action_timings
    (t : ActionClassTable) (f : String) (rows : List Row)
    (pr : Nat × ActivityRecord) (h : pr ∈ (generateExamples t f rows).1) :
    pr.2.labels.length = pr.2.action_timings.length := by
  simp only [generateExamples] at h
  obtain ⟨i, hi⟩ := List.get?_of_mem h
  obtain ⟨-, r, -, hok⟩ := generateFrom_get hi
  obtain ⟨p, q, rl, hp, -, -, hrec⟩ := mkRecord_ok_inv hok
  rw [hrec]
  simp only [parseActions] at hp
  simpa using parseActionsTokens_length hp

/-- Witness for C1 at a concrete table, root and row list. -/
theorem yielded_labels_align_with_action_timings_witness :
    (0, sampleRecord).2.labels.length = (0, sampleRecord).2.action_timings.length := by
  have hgen : (generateExamples sampleTable "/data/Charades_v1" [sampleRow]).1
      = [(0, sampleRecord)] := by with_unfolding_all rfl
  exact yielded_labels_align_with_action_timings sampleTable "/data/Charades_v1"
    [sampleRow] (0, sampleRecord) (by rw [hgen]; exact List.mem_singleton_self _)

/-- A token whose head sub-token resolves and whose remaining sub-tokens all
parse as floats parses to that label and timing list. -/
theorem parseToken_ok {t : ActionClassTable} {tok code : String}
    {subs : List String} {i : Nat} {qs : List ℚ}
    (hsplit : pySplit ' ' tok = code :: subs) (hres : resolve t code = some i)
    (hts : parseTimings subs = .ok qs) : parseToken t tok = .ok (i, qs) := by
  simp only [parseToken, hsplit, List.headD_cons, List.tail_cons, hres, hts]

/-- `parseTimings` is exactly `pyFloat` applied to each sub-token in order:
it succeeds with `qs` precisely when the sub-tokens parse pointwise to the
entries of `qs`. -/
theorem parseTimings_map (subs : List String) (qs : List ℚ) :
    parseTimings subs = .ok qs ↔ subs.map pyFloat = qs.map some := by
  induction subs generalizing qs with
  | nil => cases qs <;> simp [parseTimings]
  | cons s rest ih =>
    cases hf : pyFloat s with
    | none =>
      simp only [parseTimings, hf, List.map_cons]
      cases qs with
      | nil => simp
      | cons q0 qs3 => simp
    | some q =>
      simp only [parseTimings, hf, List.map_cons]
      cases hr : parseTimings rest with
      | error e =>
        constructor
        · intro h; cases h
        · intro h
          cases qs with
          | nil => simp at h
          | cons q0 qs3 =>
            simp only [List.map_cons, List.cons.injEq] at h
            have h4 := (ih qs3).mpr h.2
            rw [h4] at hr
            cases hr
      | ok qs2 =>
        have hsome : rest.map pyFloat = qs2.map some := (ih qs2).mp hr
        constructor
        · intro h
          cases h
          rw [hsome, List.map_cons]
        · intro h
          cases qs with
          | nil => simp at h
          | cons q0 qs3 =>
            simp only [List.map_cons, List.cons.injEq, Option.some.injEq] at h
            obtain ⟨h1, h2⟩ := h
            have h4 := (ih qs3).mpr h2
            rw [h4] at hr
            cases hr
            rw [h1]

/-- C2: For every non-empty token of the actions field (split on `;`), the
parser splits the token on single spaces, resolves the first sub-token
through the class table to obtain the label, and parses every remaining
sub-token (zero or more) as a floating-point number in order to form that
label's timing list; in particular
`actions = "c092 11.0 13.0;c147 0.0 5.0"` yields
`labels = [idx(c092), idx(c147)]` and timings `[[11.0, 13.0], [0.0, 5.0]]`. -/
theorem actions_cell_token_grammar :
    (∀ (t : ActionClassTable) (tok code : String) (subs : List String)
        (i : Nat) (qs : List ℚ),
        pySplit ' ' tok = code :: subs → resolve t code = some i →
        parseTimings subs = .ok qs → parseToken t tok = .ok (i, qs)) ∧
    (∀ (subs : List String) (qs : List ℚ),
        parseTimings subs = .ok qs ↔ subs.map pyFloat = qs.map some) ∧
    (∀ (t : ActionClassTable) (i j : Nat),
        resolve t "c092" = some i → resolve t "c147" = some j →
        parseActions t "c092 11.0 13.0;c147 0.0 5.0"
          = .ok ([i, j], [[11, 13], [0, 5]])) := by
  refine ⟨fun t tok code subs i qs h1 h2 h3 => parseToken_ok h1 h2 h3,
    parseTimings_map, fun t i j hi hj => ?_⟩
  have p1 : parseToken t "c092 11.0 13.0" = .ok (i, [11, 13]) :=
    parseToken_ok (by with_unfolding_all rfl) hi (by with_unfolding_all rfl)
  have p2 : parseToken t "c147 0.0 5.0" = .ok (j, [0, 5]) :=
    parseToken_ok (by with_unfolding_all rfl) hj (by with_unfolding_all rfl)
  show parseActionsTokens t (pySplit ';' "c092 11.0 13.0;c147 0.0 5.0") = _
  rw [show pySplit ';' "c092 11.0 13.0;c147 0.0 5.0"
      = ["c092 11.0 13.0", "c147 0.0 5.0"] from by with_unfolding_all rfl]
  rw [parseActionsTokens, if_pos (by decide : ("c092 11.0 13.0".length ≠ 0)), p1,
    parseActionsTokens, if_pos (by decide : ("c147 0.0 5.0".length ≠ 0)), p2,
    parseActionsTokens]

/-- Witness for C2: the three parts applied to the sample table, where
`c092` resolves to 0 and `c147` to 1. -/
theorem actions_cell_token_grammar_witness :
    parseToken sampleTable "c092 11.0 13.0" = .ok (0, [11, 13]) ∧
    (["11.0", "13.0"].map pyFloat = ([11, 13] : List ℚ).map some) ∧
    parseActions sampleTable "c092 11.0 13.0;c147 0.0 5.0"
      = .ok ([0, 1], [[11, 13], [0, 5]]) :=
  ⟨actions_cell_token_grammar.1 sampleTable "c092 11.0 13.0" "c092"
      ["11.0", "13.0"] 0 [11, 13] (by with_unfolding_all rfl)
      (by with_unfolding_all rfl) (by with_unfolding_all rfl),
   (actions_cell_token_grammar.2.1 ["11.0", "13.0"] [11, 13]).mp
      (by with_unfolding_all rfl),
   actions_cell_token_grammar.2.2 sampleTable 0 1 (by with_unfolding_all rfl)
      (by with_unfolding_all rfl)⟩

/-- A string has Python `len` zero exactly when it is the empty string. -/
theorem string_length_zero_iff {s : String} : s.length = 0 ↔ s = "" := by
  obtain ⟨data⟩ := s
  constructor
  · intro h
    have hd : data.length = 0 := by simpa [String.length] using h
    rw [List.length_eq_zero.mp hd]
  · intro h
    rw [h]
    decide

/-- Behaviour of the `quality`/`relevance` parse, by case on emptiness of
the raw field. -/
theorem parseQuality_spec (s : String) :
    (s = "" → parseQuality s = .ok (-100)) ∧
    (s ≠ "" → parseQuality s = (match pyInt s with
      | some n => .ok n
      | none => .error (.malformedInteger s))) := by
  constructor
  · intro h
    subst h
    simp [parseQuality]
  · intro h
    have hlen : s.length ≠ 0 := fun h0 => h (string_length_zero_iff.mp h0)
    simp only [parseQuality, if_pos hlen]

/-- C3 counterexample: for the row whose `quality` field is the whitespace
string `" "`, the trimmed field is empty, yet the parser does not emit the
sentinel −100: it attempts the integer parse and fails with
`MalformedInteger`, so no record is produced at all. -/
theorem quality_trimmed_empty_counterexample :
    stripChars " ".data = [] ∧
    mkRecord sampleTable "/data/Charades_v1" wsRow
      = .error (.malformedInteger " ") ∧
    parseQuality " " ≠ .ok (-100) := by
  refine ⟨by decide, by with_unfolding_all rfl, ?_⟩
  intro h
  rw [show parseQuality " "
      = .error (.malformedInteger " ") from by with_unfolding_all rfl] at h
  cases h

/-- C3 (amended): For every row that assembles into a record, the record's
`quality` (and likewise `relevance`) field equals the sentinel −100 when the
raw source field is the empty string, and otherwise equals the integer parse
of the field, with a `MalformedInteger` failure on non-numeric content. (The
source tests `len(field) != 0` on the raw field without trimming it, so a
whitespace-only field is not mapped to the sentinel but parsed — and fails.) -/
theorem quality_relevance_sentinel_amended :
    (∀ (t : ActionClassTable) (f : String) (row : Row) (rec : ActivityRecord),
        mkRecord t f row = .ok rec →
          ((row.quality = "" → rec.quality = -100) ∧
           (row.quality ≠ "" → pyInt row.quality = some rec.quality) ∧
           (row.relevance = "" → rec.relevance = -100) ∧
           (row.relevance ≠ "" → pyInt row.relevance = some rec.relevance))) ∧
    (∀ s : String, s ≠ "" → pyInt s = none →
        parseQuality s = .error (.malformedInteger s)) := by
  constructor
  · intro t f row rec h
    obtain ⟨p, q, r, hp, hq, hr, hrec⟩ := mkRecord_ok_inv h
    subst hrec
    refine ⟨?_, ?_, ?_, ?_⟩
    · intro he
      rw [(parseQuality_spec row.quality).1 he] at hq
      cases hq
      rfl
    · intro hne
      rw [(parseQuality_spec row.quality).2 hne] at hq
      cases hpi : pyInt row.quality with
      | none => rw [hpi] at hq; cases hq
      | some n => rw [hpi] at hq; cases hq; rfl
    · intro he
      rw [(parseQuality_spec row.relevance).1 he] at hr
      cases hr
      rfl
    · intro hne
      rw [(parseQuality_spec row.relevance).2 hne] at hr
      cases hpi : pyInt row.relevance with
      | none => rw [hpi] at hr; cases hr
      | some n => rw [hpi] at hr; cases hr; rfl
  · intro s hne hn
    rw [(parseQuality_spec s).2 hne, hn]

/-- Witness for C3 (amended): `sampleRow` has `quality = "5"` and
`relevance = ""`; a non-empty non-numeric field fails. -/
theorem quality_relevance_sentinel_amended_witness :
    pyInt sampleRow.quality = some sampleRecord.quality ∧
    sampleRecord.relevance = -100 ∧
    parseQuality "x" = .error (.malformedInteger "x") :=
  ⟨(quality_relevance_sentinel_amended.1 sampleTable "/data/Charades_v1"
      sampleRow sampleRecord (by with_unfolding_all rfl)).2.1 (by decide),
   (quality_relevance_sentinel_amended.1 sampleTable "/data/Charades_v1"
      sampleRow sampleRecord (by with_unfolding_all rfl)).2.2.1 (by decide),
   quality_relevance_sentinel_amended.2 "x" (by decide) (by decide)⟩

/-- If the tokens before `tok` all parse and `tok` (non-empty) has a class
code absent from the table, the whole actions loop fails with that code's
`UnknownClassCode`. -/
theorem parseActionsTokens_unknown_code {t : ActionClassTable} {tok code : String}
    {subs : List String} (toks2 : List String)
    (h2 : tok.length ≠ 0) (h3 : pySplit ' ' tok = code :: subs)
    (h4 : resolve t code = none) :
    ∀ (toks1 : List String) (p : List Nat × List (List ℚ)),
      parseActionsTokens t toks1 = .ok p →
      parseActionsTokens t (toks1 ++ tok :: toks2) = .error (.unknownClassCode code) := by
  intro toks1
  induction toks1 with
  | nil =>
    intro p h1
    have hpt : parseToken t tok = .error (.unknownClassCode code) := by
      simp only [parseToken, h3, List.headD_cons, h4]
    simp only [List.nil_append, parseActionsTokens, if_pos h2, hpt]
  | cons t0 rest ih =>
    intro p h1
    rw [List.cons_append, parseActionsTokens]
    rw [parseActionsTokens] at h1
    by_cases hc : t0.length ≠ 0
    · rw [if_pos hc] at h1 ⊢
      cases hpt : parseToken t t0 with
      | error e => rw [hpt] at h1; cases h1
      | ok pr =>
        obtain ⟨l0, ts0⟩ := pr
        rw [hpt] at h1
        cases hrest : parseActionsTokens t rest with
        | error e => rw [hrest] at h1; cases h1
        | ok q => rw [ih q hrest]
    · rw [if_neg hc] at h1 ⊢
      exact ih p h1

/-- A failing `actions` parse is the row's failure: the first error the
loop raises is what `mkRecord` propagates. -/
theorem mkRecord_actions_error {t : ActionClassTable} {f : String} {row : Row}
    {e : Err} (h : parseActions t row.actions = .error e) :
    mkRecord t f row = .error e := by
  simp only [mkRecord, h]

/-- C4: For every row whose actions field contains a class code absent from
the class table (at a position the loop reaches, i.e. the earlier tokens
parse), parsing that row fails with `UnknownClassCode`, no record is yielded
for that row, the whole sequence is aborted rather than skipping the row,
and the propagated error carries the row index and the raw row. -/
theorem unknown_class_code_aborts_generation :
    (∀ (t : ActionClassTable) (f : String) (row : Row) (toks1 : List String)
        (tok code : String) (subs toks2 : List String)
        (p : List Nat × List (List ℚ)),
        pySplit ';' row.actions = toks1 ++ tok :: toks2 →
        parseActionsTokens t toks1 = .ok p →
        tok.length ≠ 0 → pySplit ' ' tok = code :: subs →
        resolve t code = none →
        mkRecord t f row = .error (.unknownClassCode code)) ∧
    (∀ (t : ActionClassTable) (f : String) (pre : List Row) (row : Row)
        (post : List Row) (code : String),
        (∀ r ∈ pre, ∃ rec, mkRecord t f r = .ok rec) →
        mkRecord t f row = .error (.unknownClassCode code) →
        (generateExamples t f (pre ++ row :: post)).1.length = pre.length ∧
        (generateExamples t f (pre ++ row :: post)).2
          = some (pre.length, row, .unknownClassCode code)) := by
  constructor
  · intro t f row toks1 tok code subs toks2 p hsplit h1 h2 h3 h4
    apply mkRecord_actions_error
    simp only [parseActions, hsplit]
    exact parseActionsTokens_unknown_code toks2 h2 h3 h4 toks1 p h1
  · intro t f pre row post code hpre herr
    have h := generateFrom_abort post hpre herr 0
    simp only [generateExamples]
    exact ⟨h.1, by rw [h.2]; simp⟩

/-- Witness for C4: `badRow` carries the unknown code `czzz`; generating
from `[sampleRow, badRow]` yields one record and aborts at index 1 with the
raw row attached. -/
theorem unknown_class_code_aborts_generation_witness :
    mkRecord sampleTable "/data/Charades_v1" badRow
      = .error (.unknownClassCode "czzz") ∧
    (generateExamples sampleTable "/data/Charades_v1" [sampleRow, badRow]).1.length = 1 ∧
    (generateExamples sampleTable "/data/Charades_v1" [sampleRow, badRow]).2
      = some (1, badRow, .unknownClassCode "czzz") := by
  refine ⟨?_, ?_⟩
  · exact unknown_class_code_aborts_generation.1 sampleTable "/data/Charades_v1"
      badRow [] "czzz 1.0 2.0" "czzz" ["1.0", "2.0"] [] ([], [])
      (by with_unfolding_all rfl) rfl (by decide)
      (by with_unfolding_all rfl) (by with_unfolding_all rfl)
  · have h := unknown_class_code_aborts_generation.2 sampleTable
      "/data/Charades_v1" [sampleRow] badRow [] "czzz"
      (fun r hr => by
        rw [List.mem_singleton.mp hr]
        exact ⟨sampleRecord, by with_unfolding_all rfl⟩)
      (by with_unfolding_all rfl)
    exact ⟨h.1, h.2⟩

/-- C5: When splitting the actions field on `;`, tokens that are exactly the
empty string are discarded before parsing; consequently an empty actions
field yields `labels == []` and `action_timings == []`. -/
theorem empty_actions_tokens_discarded :
    (∀ (t : ActionClassTable) (toks : List String),
        parseActionsTokens t (toks.filter fun tok => tok != "")
          = parseActionsTokens t toks) ∧
    (∀ t : ActionClassTable, parseActions t "" = .ok ([], [])) ∧
    (∀ (t : ActionClassTable) (f : String) (row : Row) (rec : ActivityRecord),
        row.actions = "" → mkRecord t f row = .ok rec →
        rec.labels = [] ∧ rec.action_timings = []) := by
  have hfilter : ∀ (t : ActionClassTable) (toks : List String),
      parseActionsTokens t (toks.filter fun tok => tok != "")
        = parseActionsTokens t toks := by
    intro t toks
    induction toks with
    | nil => rfl
    | cons tok rest ih =>
      by_cases h : tok = ""
      · subst h
        rw [show List.filter (fun tok => tok != "") ("" :: rest)
            = List.filter (fun tok => tok != "") rest from by
          simp [List.filter_cons]]
        rw [ih, parseActionsTokens, if_neg (by decide)]
      · have hlen : tok.length ≠ 0 := fun h0 => h (string_length_zero_iff.mp h0)
        rw [show List.filter (fun tok => tok != "") (tok :: rest)
            = tok :: List.filter (fun tok => tok != "") rest from by
          simp [List.filter_cons, h]]
        rw [parseActionsTokens, parseActionsTokens, if_pos hlen, if_pos hlen, ih]
  have hempty : ∀ t : ActionClassTable, parseActions t "" = .ok ([], []) := by
    intro t
    show parseActionsTokens t (pySplit ';' "") = _
    rw [show pySplit ';' "" = [""] from by with_unfolding_all rfl]
    rw [parseActionsTokens, if_neg (by decide), parseActionsTokens]
  refine ⟨hfilter, hempty, ?_⟩
  intro t f row rec hact hok
  obtain ⟨p, q, r, hp, -, -, hrec⟩ := mkRecord_ok_inv hok
  rw [hact, hempty t] at hp
  cases hp
  rw [hrec]
  exact ⟨rfl, rfl⟩

/-- Witness for C5 at concrete inputs: a token list with an empty-string
artifact, the empty actions cell, and a full row with empty `actions`. -/
theorem empty_actions_tokens_discarded_witness :
    parseActionsTokens sampleTable
        (["c092 11.0 13.0", ""].filter fun tok => tok != "")
      = parseActionsTokens sampleTable ["c092 11.0 13.0", ""] ∧
    parseActions sampleTable "" = .ok ([], []) ∧
    (emptyActionsRecord.labels = [] ∧ emptyActionsRecord.action_timings = []) :=
  ⟨empty_actions_tokens_discarded.1 sampleTable ["c092 11.0 13.0", ""],
   empty_actions_tokens_discarded.2.1 sampleTable,
   empty_actions_tokens_discarded.2.2 sampleTable "/data/Charades_v1"
     emptyActionsRow emptyActionsRecord (by with_unfolding_all rfl)
     (by with_unfolding_all rfl)⟩

/-- C6: For every row that assembles into a record, the `objects` and
`descriptions` fields are split on `;` unconditionally with no filtering and
no trimming, preserving every resulting empty-string element; in particular
`"c090;c148;"` splits to `["c090", "c148", ""]` and the empty string splits
to a sequence containing one empty string. -/
theorem objects_descriptions_split_unfiltered :
    (∀ (t : ActionClassTable) (f : String) (row : Row) (rec : ActivityRecord),
        mkRecord t f row = .ok rec →
        rec.objects = pySplit ';' row.objects ∧
        rec.descriptions = pySplit ';' row.descriptions) ∧
    pySplit ';' "c090;c148;" = ["c090", "c148", ""] ∧
    pySplit ';' "" = [""] := by
  refine ⟨?_, by with_unfolding_all rfl, by with_unfolding_all rfl⟩
  intro t f row rec h
  obtain ⟨p, q, r, -, -, -, hrec⟩ := mkRecord_ok_inv h
  rw [hrec]
  exact ⟨rfl, rfl⟩

/-- Witness for C6: the sample row keeps the trailing empty artifacts of its
`objects` and `descriptions` cells. -/
theorem objects_descriptions_split_unfiltered_witness :
    sampleRecord.objects = pySplit ';' sampleRow.objects ∧
    sampleRecord.descriptions = pySplit ';' sampleRow.descriptions :=
  objects_descriptions_split_unfiltered.1 sampleTable "/data/Charades_v1"
    sampleRow sampleRecord (by with_unfolding_all rfl)

/-- C7: For every row that assembles into a record, the record's video path
is `os.path.join(video_folder, id + ".mp4")`; when the folder is non-empty,
does not end with a separator and the file name is relative, that is folder,
separator, id, and the literal suffix `.mp4`; in particular id `AO8RW` under
root `/data/Charades_v1` gives `/data/Charades_v1/AO8RW.mp4`. -/
theorem video_path_join_id_mp4 :
    (∀ (t : ActionClassTable) (f : String) (row : Row) (rec : ActivityRecord),
        mkRecord t f row = .ok rec →
        rec.video = osPathJoin f (row.id ++ ".mp4") ∧
        (f ≠ "" → pyEndsWith f "/" = false →
          pyStartsWith (row.id ++ ".mp4") "/" = false →
          rec.video = f ++ "/" ++ row.id ++ ".mp4")) ∧
    osPathJoin "/data/Charades_v1" ("AO8RW" ++ ".mp4")
      = "/data/Charades_v1/AO8RW.mp4" := by
  refine ⟨?_, by with_unfolding_all rfl⟩
  intro t f row rec h
  obtain ⟨p, q, r, -, -, -, hrec⟩ := mkRecord_ok_inv h
  rw [hrec]
  refine ⟨rfl, fun hne hend hstart => ?_⟩
  show osPathJoin f (row.id ++ ".mp4") = _
  simp only [osPathJoin, hstart, hend, hne, Bool.false_eq_true, if_false,
    or_self, String.append_assoc]

/-- Witness for C7: the sample row's video path. -/
theorem video_path_join_id_mp4_witness :
    sampleRecord.video = osPathJoin "/data/Charades_v1" (sampleRow.id ++ ".mp4") ∧
    sampleRecord.video = "/data/Charades_v1" ++ "/" ++ sampleRow.id ++ ".mp4" :=
  have h := video_path_join_id_mp4.1 sampleTable "/data/Charades_v1" sampleRow
    sampleRecord (by with_unfolding_all rfl)
  ⟨h.1, h.2 (by decide) (by with_unfolding_all rfl) (by with_unfolding_all rfl)⟩

/-- C8: For every row that assembles into a record, the record's `length`
field is the row's raw `length` string passed through verbatim, even though
the declared output schema types `length` as float32. -/
theorem length_raw_string_vs_float_schema :
    (∀ (t : ActionClassTable) (f : String) (row : Row) (rec : ActivityRecord),
        mkRecord t f row = .ok rec → rec.length = row.length) ∧
    (∀ numClasses : Nat,
        (infoFeatures numClasses).lookup "length"
          = some (.value "float32")) := by
  constructor
  · intro t f row rec h
    obtain ⟨p, q, r, -, -, -, hrec⟩ := mkRecord_ok_inv h
    rw [hrec]
  · intro n
    with_unfolding_all rfl

/-- Witness for C8: the sample row's raw `length` string `"12.3"` survives
into the record while the schema declares a float. -/
theorem length_raw_string_vs_float_schema_witness :
    sampleRecord.length = sampleRow.length ∧
    (infoFeatures 157).lookup "length" = some (.value "float32") :=
  ⟨length_raw_string_vs_float_schema.1 sampleTable "/data/Charades_v1"
      sampleRow sampleRecord (by with_unfolding_all rfl),
   length_raw_string_vs_float_schema.2 157⟩

/-! Equivalence of the two `_generate_examples` translations. -/

theorem parseTimingsM_eq (subs : List String) :
    parseTimingsM subs = parseTimings subs := by
  induction subs with
  | nil => rfl
  | cons s rest ih => simp only [parseTimingsM, parseTimings, ih]

theorem parseTokenM_eq (t : ActionClassTable) (tok : String) :
    parseTokenM t tok = parseToken t tok := by
  simp only [parseTokenM, parseToken, parseTimingsM_eq]

theorem parseActionsTokensM_eq (t : ActionClassTable) (toks : List String) :
    parseActionsTokensM t toks = parseActionsTokens t toks := by
  induction toks with
  | nil => rfl
  | cons tok rest ih =>
    simp only [parseActionsTokensM, parseActionsTokens, parseTokenM_eq, ih]

theorem mkRecordM_eq (t : ActionClassTable) (f : String) (row : Row) :
    mkRecordM t f row = mkRecord t f row := by
  simp only [mkRecordM, mkRecord, parseActionsM, parseActions,
    parseActionsTokensM_eq, parseQualityM, parseQuality]

theorem generateFromM_eq (t : ActionClassTable) (f : String) (rows : List Row)
    (idx : Nat) : generateFromM t f idx rows = generateFrom t f idx rows := by
  induction rows generalizing idx with
  | nil => rfl
  | cons row rest ih =>
    simp only [generateFromM, generateFrom, mkRecordM_eq, ih]

/-- C9: The record-assembly logic of the two source files is behaviorally
identical: for every class table, video root and CSV row list, the
`_generate_examples` of charades.py and of charadesMeddled.py yield the same
`(index, record)` pairs and fail in the same way. -/
theorem meddled_generator_equivalent (t : ActionClassTable) (f : String)
    (rows : List Row) : generateExamplesM t f rows = generateExamples t f rows := by
  simp only [generateExamplesM, generateExamples, generateFromM_eq]

/-- The indices carried by the yielded pairs of the generator loop are
consecutive, starting at the initial counter value. -/
theorem generateFrom_map_fst {t : ActionClassTable} {f : String} :
    ∀ (rows : List Row) (idx : Nat),
      (generateFrom t f idx rows).1.map Prod.fst
        = List.range' idx (generateFrom t f idx rows).1.length := by
  intro rows
  induction rows with
  | nil => intro idx; rfl
  | cons row rest ih =>
    intro idx
    cases hm : mkRecord t f row with
    | error e => simp only [generateFrom, hm]; rfl
    | ok rec =>
      simp only [generateFrom, hm, List.map_cons, List.length_cons]
      exact congrArg (List.cons idx) (ih (idx + 1))

/-- C10: When parsing of some row fails, every record for a preceding row
has already been yielded with its index; indices are assigned starting at 0
and incremented only after a row's record is fully assembled and yielded; a
row that fails mid-parse contributes no partial record and does not consume
an index. -/
theorem indices_sequential_abort_preserves_prefix (t : ActionClassTable)
    (f : String) (rows : List Row) :
    ((generateExamples t f rows).1.map Prod.fst
        = List.range (generateExamples t f rows).1.length) ∧
    (∀ (i : Nat) (pr : Nat × ActivityRecord),
        (generateExamples t f rows).1.get? i = some pr →
        pr.1 = i ∧ ∃ r, rows.get? i = some r ∧ mkRecord t f r = .ok pr.2) ∧
    (∀ (j : Nat) (row : Row) (e : Err),
        (generateExamples t f rows).2 = some (j, row, e) →
        j = (generateExamples t f rows).1.length ∧
        rows.get? j = some row ∧ mkRecord t f row = .error e) := by
  refine ⟨?_, ?_, ?_⟩
  · simp only [generateExamples]
    rw [List.range_eq_range']
    exact generateFrom_map_fst rows 0
  · intro i pr h
    simp only [generateExamples] at h
    obtain ⟨h1, r, h2, h3⟩ := generateFrom_get h
    exact ⟨by omega, r, h2, h3⟩
  · intro j row e h
    simp only [generateExamples] at h ⊢
    obtain ⟨h1, h2, h3⟩ := generateFrom_err h
    refine ⟨by omega, ?_, h3⟩
    rw [show j = (generateFrom t f 0 rows).1.length from by omega]
    exact h2

/-- Witness for C10 on `[sampleRow, badRow]`: one record yielded at index 0,
then the failure at index 1 with no record and no index consumed for it. -/
theorem indices_sequential_abort_preserves_prefix_witness :
    ((generateExamples sampleTable "/data/Charades_v1" [sampleRow, badRow]).1.map Prod.fst
        = List.range
            (generateExamples sampleTable "/data/Charades_v1" [sampleRow, badRow]).1.length) ∧
    ((0, sampleRecord).1 = 0 ∧ ∃ r, [sampleRow, badRow].get? 0 = some r ∧
        mkRecord sampleTable "/data/Charades_v1" r = .ok (0, sampleRecord).2) ∧
    (1 = (generateExamples sampleTable "/data/Charades_v1" [sampleRow, badRow]).1.length ∧
        [sampleRow, badRow].get? 1 = some badRow ∧
        mkRecord sampleTable "/data/Charades_v1" badRow
          = .error (.unknownClassCode "czzz")) :=
  have h := indices_sequential_abort_preserves_prefix sampleTable
    "/data/Charades_v1" [sampleRow, badRow]
  ⟨h.1,
   h.2.1 0 (0, sampleRecord) (by with_unfolding_all rfl),
   h.2.2 1 badRow (.unknownClassCode "czzz") (by with_unfolding_all rfl)⟩

end Charades
